import Mathlib

/-!
Verification of the Crowding/Risk Prediction Engine.

The engine (`lib/predictionEngine.ts`) turns a list of geotagged,
timestamped, severity-rated reports plus active hazard zones into
crowding forecasts.  We embed the engine shallowly: JavaScript numbers
become real numbers, timestamps become integers (milliseconds), the
`Set<string>` of processed ids becomes a list of strings, and the
asynchronous database fetches become explicit list parameters.
`Date#getHours` / `Date#getDay` are modelled in UTC (the engine only
buckets by them; no claim depends on the timezone offset).
-/

namespace Prediction

/-- Severity of a user report: the TypeScript union `'low'|'medium'|'high'`. -/
inductive Severity where
  | low
  | medium
  | high
deriving DecidableEq

/-- A user report as consumed by the engine.  `location` is `(lng, lat)`
as in the source (GeoJSON order); `createdAt` is a millisecond timestamp. -/
structure Report where
  id : String
  location : ℝ × ℝ
  severity : Severity
  createdAt : ℤ
  description : Option String

/-- A hazard zone; only its (optional) center is read by the engine. -/
structure Zone where
  center : Option (ℝ × ℝ)

/-- `severityScore`: `severity === 'high' ? 3 : severity === 'medium' ? 2 : 1`. -/
def sevScore : Severity → ℕ
  | .high => 3
  | .medium => 2
  | .low => 1

/-- JavaScript `Math.round`: rounds half-up towards `+∞`, i.e. `⌊x + 1/2⌋`. -/
noncomputable def jsRound (x : ℝ) : ℤ := ⌊x + 1 / 2⌋

/-- `new Date(t).getHours()` modelled in UTC: hour-of-day of timestamp `t`. -/
def getHours (t : ℤ) : ℤ := (Int.fdiv t 3600000).emod 24

/-- `new Date(t).getDay()` modelled in UTC: day-of-week of timestamp `t`
(`0` = Sunday; the Unix epoch fell on a Thursday, day `4`). -/
def getDay (t : ℤ) : ℤ := (Int.fdiv t 86400000 + 4).emod 7

/-- JavaScript `Math.atan2 y x`. -/
noncomputable def jsAtan2 (y x : ℝ) : ℝ :=
  if 0 < x then Real.arctan (y / x)
  else if x < 0 then
    (if 0 ≤ y then Real.arctan (y / x) + Real.pi else Real.arctan (y / x) - Real.pi)
  else
    (if 0 < y then Real.pi / 2 else if y < 0 then -(Real.pi / 2) else 0)

/-- `toRad` from `geoUtils.ts`: degrees to radians. -/
noncomputable def toRad (degrees : ℝ) : ℝ := degrees * (Real.pi / 180)

/-- `calculateDistance` from `geoUtils.ts`: haversine great-circle distance
in kilometres, Earth radius 6371 km. -/
noncomputable def calculateDistance (lat1 lon1 lat2 lon2 : ℝ) : ℝ :=
  let R : ℝ := 6371
  let dLat := toRad (lat2 - lat1)
  let dLon := toRad (lon2 - lon1)
  let a := Real.sin (dLat / 2) * Real.sin (dLat / 2) +
    Real.cos (toRad lat1) * Real.cos (toRad lat2) *
      (Real.sin (dLon / 2) * Real.sin (dLon / 2))
  let c := 2 * jsAtan2 (Real.sqrt a) (Real.sqrt (1 - a))
  R * c

/-- Distance between two reports as the clustering code calls it:
`calculateDistance(a.location[1], a.location[0], b.location[1], b.location[0])`. -/
noncomputable def distR (a b : Report) : ℝ :=
  calculateDistance a.location.2 a.location.1 b.location.2 b.location.1

/-- A location cluster: `{ center, reports, name }` in the source. -/
structure Cluster where
  center : ℝ × ℝ
  reports : List Report
  name : String

/-- `report.description?.substring(0, 30) || 'Unknown Area'` (an empty
truncated description is falsy and also yields the default). -/
def clusterName (seed : Report) : String :=
  match seed.description with
  | none => "Unknown Area"
  | some s => if s.take 30 = "" then "Unknown Area" else s.take 30

/-- Arithmetic-mean centroid `(avgLng, avgLat)` of a member list. -/
noncomputable def centroid (l : List Report) : ℝ × ℝ :=
  ((l.map (fun r => r.location.1)).sum / l.length,
   (l.map (fun r => r.location.2)).sum / l.length)

/-- Build the cluster record pushed by the source: members as collected,
center overwritten with the centroid after membership is frozen, name
derived from the seed's description. -/
noncomputable def mkCluster (seed : Report) (members : List Report) : Cluster :=
  { center := centroid members, reports := members, name := clusterName seed }

/-- The inner `for (const other of reports)` scan of
`clusterReportsByLocation`: walks the full report list, skipping the seed
itself and already-processed ids, and appends every report within
`radiusKm` of the seed's location, marking it processed as it goes. -/
noncomputable def innerScan (seed : Report) (radiusKm : ℝ) :
    List Report → List Report → List String → List Report × List String
  | [], members, processed => (members, processed)
  | other :: rest, members, processed =>
    if other.id = seed.id ∨ other.id ∈ processed then
      innerScan seed radiusKm rest members processed
    else if distR seed other ≤ radiusKm then
      innerScan seed radiusKm rest (members ++ [other]) (other.id :: processed)
    else
      innerScan seed radiusKm rest members processed

/-- The outer `for (const report of reports)` loop of
`clusterReportsByLocation`: each report whose id is not yet processed
seeds a cluster, the inner scan collects members over the full list
`all`, and the seed's id is marked processed after the scan. -/
noncomputable def clusterGo (radiusKm : ℝ) (all : List Report) :
    List Report → List String → List Cluster
  | [], _ => []
  | r :: rest, processed =>
    if r.id ∈ processed then clusterGo radiusKm all rest processed
    else
      let s := innerScan r radiusKm all [r] processed
      mkCluster r s.1 :: clusterGo radiusKm all rest (r.id :: s.2)

/-- `clusterReportsByLocation(reports, radiusKm)` from `predictionEngine.ts`. -/
noncomputable def clusterReportsByLocation (reports : List Report) (radiusKm : ℝ) :
    List Cluster :=
  clusterGo radiusKm reports reports []

/-- The clustering algorithm as the specification words it: iterate the
still-unclustered reports in order, seed a cluster with the first one,
let exactly the still-unclustered reports within `radiusKm` of the seed's
original location join, freeze membership, and recurse on the rest.
Used as the comparison point for the refinement proof. -/
noncomputable def clusterByLocationSpec (radiusKm : ℝ) : List Report → List Cluster
  | [] => []
  | seed :: rest =>
    mkCluster seed (seed :: rest.filter (fun o => decide (distR seed o ≤ radiusKm))) ::
      clusterByLocationSpec radiusKm
        (rest.filter (fun o => !decide (distR seed o ≤ radiusKm)))
termination_by l => l.length
decreasing_by
  exact Nat.lt_succ_of_le (List.length_filter_le _ _)

/-- Trend label of a prediction. -/
inductive Trend where
  | increasing
  | decreasing
  | stable
deriving DecidableEq

/-- The `factors` record of a `CrowdingPrediction`. -/
structure Factors where
  historicalReports : ℝ
  timeOfDay : ℤ
  dayOfWeek : ℤ
  weatherImpact : ℤ
  activeZones : ℕ

/-- The `CrowdingPrediction` output record. -/
structure CrowdingPrediction where
  location : ℝ × ℝ
  areaName : String
  crowdingLevel : ℤ
  confidence : ℤ
  trend : Trend
  predictedFor : ℤ
  basedOnDays : ℝ
  factors : Factors

/-- `analyzeCrowdingPattern(cluster, zones, daysAnalyzed, predictionHours)`
from `predictionEngine.ts`, with the wall clock `now` passed explicitly.
The source accumulates `hourPatterns` / `dayPatterns` maps of
`{count, totalSeverity}` per hour / day and then reads only the `count`
of the predicted hour and day; we embed those reads directly as bucket
counts (the accumulated `totalSeverity` is never read by the source). -/
noncomputable def analyzeCrowdingPattern (cluster : Cluster) (zones : List Zone)
    (daysAnalyzed : ℝ) (predictionHours : ℤ) (now : ℤ) : CrowdingPrediction :=
  let reports := cluster.reports
  let predictedFor : ℤ := now + predictionHours * (60 * 60 * 1000)
  let predictedHour := getHours predictedFor
  let predictedDay := getDay predictedFor
  let hourCount :=
    (reports.filter (fun r => decide (getHours r.createdAt = predictedHour))).length
  let dayCount :=
    (reports.filter (fun r => decide (getDay r.createdAt = predictedDay))).length
  let historicalReports := reports.length
  let avgReportsPerDay : ℝ := (historicalReports : ℝ) / daysAnalyzed
  let timeOfDayFactor : ℝ :=
    if 0 < hourCount then ((hourCount : ℝ) / avgReportsPerDay) * 100 else 0
  let dayOfWeekFactor : ℝ :=
    if 0 < dayCount then ((dayCount : ℝ) / ((historicalReports : ℝ) / 7)) * 100 else 0
  let highSeverityCount :=
    (reports.filter (fun r => decide (r.severity = Severity.high))).length
  let weatherImpact : ℝ := ((highSeverityCount : ℝ) / (historicalReports : ℝ)) * 100
  let nearbyZones := zones.filter (fun zone =>
    match zone.center with
    | none => false
    | some c =>
      decide (calculateDistance cluster.center.2 cluster.center.1 c.2 c.1 ≤ 1))
  let activeZonesImpact : ℝ := min ((nearbyZones.length : ℝ) * 20) 100
  let crowdingLevel : ℤ :=
    min (jsRound (timeOfDayFactor * 0.25 + dayOfWeekFactor * 0.20 +
      weatherImpact * 0.15 + activeZonesImpact * 0.25 +
      (min (avgReportsPerDay * 10) 100) * 0.15)) 100
  let recentReports :=
    reports.filter (fun r => decide (now - 7 * 24 * 60 * 60 * 1000 < r.createdAt))
  let olderReports :=
    reports.filter (fun r => decide (r.createdAt ≤ now - 7 * 24 * 60 * 60 * 1000))
  let trend : Trend :=
    if (olderReports.length : ℝ) * 1.2 < (recentReports.length : ℝ) then .increasing
    else if (recentReports.length : ℝ) < (olderReports.length : ℝ) * 0.8 then .decreasing
    else .stable
  let confidence : ℤ := min (jsRound (((historicalReports : ℝ) / daysAnalyzed) * 10)) 100
  { location := cluster.center
    areaName := cluster.name
    crowdingLevel := crowdingLevel
    confidence := confidence
    trend := trend
    predictedFor := predictedFor
    basedOnDays := daysAnalyzed
    factors :=
      { historicalReports := (jsRound (avgReportsPerDay * 10) : ℝ) / 10
        timeOfDay := jsRound timeOfDayFactor
        dayOfWeek := jsRound dayOfWeekFactor
        weatherImpact := jsRound weatherImpact
        activeZones := nearbyZones.length } }

/-- `generateCrowdingPredictions(daysToAnalyze, predictionHours)` from
`predictionEngine.ts`, with the fetched `reports` / `zones` and the wall
clock passed explicitly.  Clusters at radius 0.5 km, scores each cluster,
keeps only predictions with `crowdingLevel > 20`, and sorts descending by
`crowdingLevel` (the JavaScript comparator `b.crowdingLevel - a.crowdingLevel`). -/
noncomputable def generateCrowdingPredictions (reports : List Report) (zones : List Zone)
    (daysToAnalyze : ℝ) (predictionHours : ℤ) (now : ℤ) : List CrowdingPrediction :=
  let locationClusters := clusterReportsByLocation reports 0.5
  let predictions :=
    (locationClusters.map
      (fun c => analyzeCrowdingPattern c zones daysToAnalyze predictionHours now)).filter
      (fun p => decide (20 < p.crowdingLevel))
  predictions.mergeSort (fun a b => decide (b.crowdingLevel ≤ a.crowdingLevel))

/-- One row of the hourly profile. -/
structure HourlyEntry where
  hour : ℕ
  crowdingLevel : ℤ
  confidence : ℤ
deriving DecidableEq

/-- `getHourlyPredictions(location, radiusKm, daysToAnalyze)` from
`predictionEngine.ts`, with the fetched `reports` passed explicitly:
filters reports to those within `radiusKm` of `location`, then maps each
hour `0..23` to its bucket's average severity score and derived
crowding/confidence values. -/
noncomputable def getHourlyPredictions (reports : List Report) (location : ℝ × ℝ)
    (radiusKm : ℝ) (daysToAnalyze : ℝ) : List HourlyEntry :=
  let nearbyReports := reports.filter (fun rep =>
    decide (calculateDistance location.2 location.1
      rep.location.2 rep.location.1 ≤ radiusKm))
  (List.range 24).map (fun (hour : ℕ) =>
    let hourReports :=
      nearbyReports.filter (fun r => decide (getHours r.createdAt = (hour : ℤ)))
    let avgSeverity : ℝ :=
      if 0 < hourReports.length then
        (hourReports.map (fun r => (sevScore r.severity : ℝ))).sum / hourReports.length
      else 0
    { hour := hour
      crowdingLevel := min (jsRound (avgSeverity * 33.33)) 100
      confidence :=
        min (jsRound (((hourReports.length : ℝ) / (daysToAnalyze / 24)) * 100)) 100 })

/-- One step of the `for (const pred of predictions)` loop of
`getPredictionForTime`.  The running minimum starts at `Infinity`, against
which every real distance compares strictly lower, so the empty
accumulator is modelled as `none`. -/
noncomputable def closestStep (location : ℝ × ℝ) (radiusKm : ℝ)
    (acc : Option (CrowdingPrediction × ℝ)) (pred : CrowdingPrediction) :
    Option (CrowdingPrediction × ℝ) :=
  let d := calculateDistance location.2 location.1 pred.location.2 pred.location.1
  match acc with
  | none => if d ≤ radiusKm then some (pred, d) else none
  | some pm => if d ≤ radiusKm ∧ d < pm.2 then some (pred, d) else some pm

/-- `getPredictionForTime(location, targetTime, radiusKm, daysToAnalyze)`
from `predictionEngine.ts`: derives the forecast horizon
`Math.round((targetTime - now) / 3_600_000)`, re-runs the general
forecast, and keeps the qualifying prediction closest to `location`. -/
noncomputable def getPredictionForTime (location : ℝ × ℝ) (targetTime : ℤ)
    (radiusKm : ℝ) (daysToAnalyze : ℝ) (reports : List Report) (zones : List Zone)
    (now : ℤ) : Option CrowdingPrediction :=
  let predictions := generateCrowdingPredictions reports zones daysToAnalyze
    (jsRound (((targetTime - now : ℤ) : ℝ) / (1000 * 60 * 60))) now
  (predictions.foldl (closestStep location radiusKm) none).map Prod.fst

/-- Distance from a query location to a prediction's cluster center, as
`getPredictionForTime` computes it. -/
noncomputable def distToPrediction (location : ℝ × ℝ) (pred : CrowdingPrediction) : ℝ :=
  calculateDistance location.2 location.1 pred.location.2 pred.location.1

/-- Membership condition of the inner clustering scan, as a predicate:
a report joins the cluster of `seed` when it is not the seed itself, its
id is not yet processed, and it lies within `radiusKm` of the seed. -/
noncomputable def joinsSeed (seed : Report) (radiusKm : ℝ) (processed : List String)
    (o : Report) : Bool :=
  !decide (o.id = seed.id ∨ o.id ∈ processed) && decide (distR seed o ≤ radiusKm)

/-- Reports whose id is not in the processed set. -/
def unprocessedB (processed : List String) (o : Report) : Bool :=
  decide (o.id ∉ processed)

/-- Report `A` of the specification's clustering example: `(0°, 0°)`. -/
def reportA : Report :=
  { id := "a", location := (0, 0), severity := .low, createdAt := 0, description := none }

/-- Report `B` of the specification's clustering example: `0.004°` of
longitude east of `A` on the equator (≈ 0.445 km from `A`). -/
def reportB : Report :=
  { id := "b", location := (0.004, 0), severity := .low, createdAt := 0, description := none }

/-- Report `C` of the specification's clustering example: `0.008°` of
longitude east of `A` on the equator (≈ 0.890 km from `A`). -/
def reportC : Report :=
  { id := "c", location := (0.008, 0), severity := .low, createdAt := 0, description := none }

/-- A single high-severity report at the origin, timestamped at the epoch. -/
def reportHigh : Report :=
  { id := "h", location := (0, 0), severity := .high, createdAt := 0, description := none }

/-- The hour-`hour` bucket of the hourly profile: reports within `radiusKm`
of `location` whose (modelled) local hour equals `hour`. -/
noncomputable def hourBucket (reports : List Report) (location : ℝ × ℝ)
    (radiusKm : ℝ) (hour : ℕ) : List Report :=
  (reports.filter (fun rep =>
    decide (calculateDistance location.2 location.1
      rep.location.2 rep.location.1 ≤ radiusKm))).filter
    (fun r => decide (getHours r.createdAt = (hour : ℤ)))

/-- Mean severity score of a report list, `0` for the empty list. -/
noncomputable def meanSeverity (l : List Report) : ℝ :=
  match l with
  | [] => 0
  | _ :: _ => (l.map (fun r => (sevScore r.severity : ℝ))).sum / l.length

end Prediction

namespace Prediction

theorem calculateDistance_symm (lat1 lon1 lat2 lon2 : ℝ) :
    calculateDistance lat1 lon1 lat2 lon2 = calculateDistance lat2 lon2 lat1 lon1 := by
  have hs : ∀ x : ℝ, Real.sin (-x) * Real.sin (-x) = Real.sin x * Real.sin x := by
    intro x; rw [Real.sin_neg]; ring
  simp only [calculateDistance]
  rw [show toRad (lat1 - lat2) = -(toRad (lat2 - lat1)) from by unfold toRad; ring,
    show toRad (lon1 - lon2) = -(toRad (lon2 - lon1)) from by unfold toRad; ring,
    neg_div, hs, neg_div, hs, mul_comm (Real.cos (toRad lat2)) (Real.cos (toRad lat1))]

theorem calculateDistance_self (lat lon : ℝ) : calculateDistance lat lon lat lon = 0 := by
  simp only [calculateDistance]
  norm_num [toRad, jsAtan2]

theorem calculateDistance_equator {δ : ℝ} (h0 : 0 ≤ δ) (h1 : δ ≤ 1) :
    calculateDistance 0 0 0 δ = 6371 * (δ * (Real.pi / 180)) := by
  have hθval : toRad δ / 2 = δ * (Real.pi / 180) / 2 := by unfold toRad; ring
  have hθ0 : 0 ≤ toRad δ / 2 := by
    rw [hθval]; positivity
  have hθlt : toRad δ / 2 < Real.pi / 2 := by
    rw [hθval]
    nlinarith [Real.pi_pos]
  have hθle : toRad δ / 2 ≤ Real.pi := by linarith [Real.pi_pos]
  have hsin : 0 ≤ Real.sin (toRad δ / 2) := Real.sin_nonneg_of_nonneg_of_le_pi hθ0 hθle
  have hcos : 0 < Real.cos (toRad δ / 2) :=
    Real.cos_pos_of_mem_Ioo ⟨by linarith [Real.pi_pos], hθlt⟩
  simp only [calculateDistance]
  rw [sub_zero, sub_zero]
  rw [show toRad 0 = 0 from by unfold toRad; ring]
  rw [zero_div, Real.sin_zero, Real.cos_zero, mul_zero, zero_add, one_mul, one_mul]
  rw [Real.sqrt_mul_self hsin]
  rw [show 1 - Real.sin (toRad δ / 2) * Real.sin (toRad δ / 2) =
      Real.cos (toRad δ / 2) * Real.cos (toRad δ / 2) from by
    have := Real.sin_sq_add_cos_sq (toRad δ / 2); nlinarith]
  rw [Real.sqrt_mul_self (le_of_lt hcos)]
  rw [show jsAtan2 (Real.sin (toRad δ / 2)) (Real.cos (toRad δ / 2)) = toRad δ / 2 from by
    unfold jsAtan2
    rw [if_pos hcos, ← Real.tan_eq_sin_div_cos,
      Real.arctan_tan (by linarith [Real.pi_pos]) hθlt]]
  unfold toRad
  ring

theorem distR_AB_le : distR reportA reportB ≤ 0.45 := by
  have h : distR reportA reportB = calculateDistance 0 0 0 0.004 := by
    simp [distR, reportA, reportB]
  rw [h, calculateDistance_equator (by norm_num) (by norm_num)]
  nlinarith [Real.pi_lt_d2]

theorem distR_AC_not_le : ¬ distR reportA reportC ≤ 0.45 := by
  have h : distR reportA reportC = calculateDistance 0 0 0 0.008 := by
    simp [distR, reportA, reportC]
  rw [h, calculateDistance_equator (by norm_num) (by norm_num)]
  push_neg
  nlinarith [Real.pi_gt_three]

/-- C10: the distance utility is a pure total function; it is symmetric in
its two coordinate pairs, and the distance from any point to itself is 0. -/
theorem claim_C10_distance_symm_self :
    (∀ lat1 lon1 lat2 lon2 : ℝ,
      calculateDistance lat1 lon1 lat2 lon2 = calculateDistance lat2 lon2 lat1 lon1) ∧
    (∀ lat lon : ℝ, calculateDistance lat lon lat lon = 0) :=
  ⟨calculateDistance_symm, calculateDistance_self⟩

end Prediction


namespace Prediction

theorem innerScan_eq (seed : Report) (radiusKm : ℝ) :
    ∀ (scan members : List Report) (processed : List String),
      (scan.map Report.id).Nodup →
      innerScan seed radiusKm scan members processed =
        (members ++ scan.filter (joinsSeed seed radiusKm processed),
         ((scan.filter (joinsSeed seed radiusKm processed)).map Report.id).reverse
           ++ processed) := by
  intro scan
  induction scan with
  | nil => intro members processed _; simp [innerScan]
  | cons other rest ih =>
    intro members processed hnd
    rw [List.map_cons, List.nodup_cons] at hnd
    obtain ⟨hother, hnd'⟩ := hnd
    by_cases h1 : other.id = seed.id ∨ other.id ∈ processed
    · have hjoin : joinsSeed seed radiusKm processed other = false := by
        simp [joinsSeed, h1]
      have hfc : List.filter (joinsSeed seed radiusKm processed) (other :: rest) =
          List.filter (joinsSeed seed radiusKm processed) rest :=
        List.filter_cons_of_neg (by simp [hjoin])
      simp only [innerScan, if_pos h1, ih _ _ hnd', hfc]
    · by_cases h2 : distR seed other ≤ radiusKm
      · have hjoin : joinsSeed seed radiusKm processed other = true := by
          simp only [joinsSeed, Bool.and_eq_true, Bool.not_eq_true', decide_eq_false_iff_not,
            decide_eq_true_eq]
          exact ⟨h1, h2⟩
        have hcong : rest.filter (joinsSeed seed radiusKm (other.id :: processed)) =
            rest.filter (joinsSeed seed radiusKm processed) := by
          apply List.filter_congr
          intro x hx
          have hxid : ¬ x.id = other.id := by
            intro he
            exact hother (he ▸ List.mem_map_of_mem Report.id hx)
          simp only [joinsSeed]
          congr 2
          rw [decide_eq_decide]
          simp [List.mem_cons, hxid]
        have hfc : List.filter (joinsSeed seed radiusKm processed) (other :: rest) =
            other :: List.filter (joinsSeed seed radiusKm processed) rest :=
          List.filter_cons_of_pos hjoin
        simp only [innerScan, if_neg h1, if_pos h2, ih _ _ hnd', hcong, hfc]
        simp [List.reverse_cons, List.append_assoc]
      · have hjoin : joinsSeed seed radiusKm processed other = false := by
          simp [joinsSeed, h2]
        have hfc : List.filter (joinsSeed seed radiusKm processed) (other :: rest) =
            List.filter (joinsSeed seed radiusKm processed) rest :=
          List.filter_cons_of_neg (by simp [hjoin])
        simp only [innerScan, if_neg h1, if_neg h2, ih _ _ hnd', hfc]

end Prediction

namespace Prediction

theorem filter_unprocessed_cons (r : Report) (joined : List Report)
    (processed : List String) (L : List Report) :
    L.filter (unprocessedB (r.id :: ((joined.map Report.id).reverse ++ processed))) =
      (L.filter (unprocessedB processed)).filter
        (fun o => !decide (o.id = r.id) && !decide (o.id ∈ joined.map Report.id)) := by
  rw [List.filter_filter]
  apply List.filter_congr
  intro x _
  rw [Bool.eq_iff_iff]
  simp only [unprocessedB, Bool.and_eq_true, Bool.not_eq_true', decide_eq_false_iff_not,
    decide_eq_true_eq, List.mem_cons, List.mem_append, List.mem_reverse]
  tauto

theorem clusterGo_eq_spec (radiusKm : ℝ) (all : List Report)
    (hall : (all.map Report.id).Nodup) :
    ∀ (pending : List Report) (processed : List String) (q : List Report),
      all.filter (unprocessedB processed) = q →
      pending.filter (unprocessedB processed) = q →
      clusterGo radiusKm all pending processed = clusterByLocationSpec radiusKm q := by
  intro pending
  induction pending with
  | nil =>
    intro processed q hq hp
    simp only [List.filter_nil] at hp
    subst hp
    simp [clusterGo, clusterByLocationSpec]
  | cons r rest ih =>
    intro processed q hq hp
    by_cases hr : r.id ∈ processed
    · have hu : unprocessedB processed r = false := by simp [unprocessedB, hr]
      have hp' : rest.filter (unprocessedB processed) = q := by
        rwa [List.filter_cons_of_neg (by simp [hu])] at hp
      simp only [clusterGo, if_pos hr]
      exact ih processed q hq hp'
    · have hu : unprocessedB processed r = true := by simp [unprocessedB, hr]
      have hp' : q = r :: rest.filter (unprocessedB processed) := by
        rw [← hp, List.filter_cons_of_pos hu]
      set q' := rest.filter (unprocessedB processed) with hq'def
      have hqsub : (q.map Report.id).Sublist (all.map Report.id) := by
        rw [← hq]
        exact (List.filter_sublist all).map Report.id
      have hqnd : (q.map Report.id).Nodup := List.Nodup.sublist hqsub hall
      have hqnd' : r.id ∉ q'.map Report.id ∧ (q'.map Report.id).Nodup := by
        rw [hp'] at hqnd
        simpa [List.nodup_cons] using hqnd
      have hscan := innerScan_eq r radiusKm all [r] processed hall
      set joined := q'.filter (fun o => decide (distR r o ≤ radiusKm)) with hjdef
      have hjq : all.filter (joinsSeed r radiusKm processed) = joined := by
        have h1 : all.filter (joinsSeed r radiusKm processed) =
            (all.filter (unprocessedB processed)).filter
              (fun o => !decide (o.id = r.id) && decide (distR r o ≤ radiusKm)) := by
          rw [List.filter_filter]
          apply List.filter_congr
          intro x _
          rw [Bool.eq_iff_iff]
          simp only [joinsSeed, unprocessedB, Bool.and_eq_true, Bool.not_eq_true',
            decide_eq_false_iff_not, decide_eq_true_eq, not_or]
          tauto
        rw [h1, hq, hp', List.filter_cons_of_neg (by simp), hjdef]
        apply List.filter_congr
        intro x hx
        have hxid : ¬ x.id = r.id := by
          intro he
          exact hqnd'.1 (he ▸ List.mem_map_of_mem Report.id hx)
        simp [hxid]
      have hmemiff : ∀ x ∈ q', (x.id ∈ joined.map Report.id) ↔ distR r x ≤ radiusKm := by
        intro x hx
        constructor
        · intro hmem
          obtain ⟨y, hy, hyx⟩ := List.mem_map.mp hmem
          have hyq : y ∈ q' := List.mem_of_mem_filter hy
          have : y = x := List.inj_on_of_nodup_map hqnd'.2 hyq hx hyx
          subst this
          simpa using (List.mem_filter.mp hy).2
        · intro hdist
          exact List.mem_map_of_mem Report.id (List.mem_filter.mpr ⟨hx, by simpa using hdist⟩)
      have hdrop : ∀ x ∈ q',
          (!decide (x.id = r.id) && !decide (x.id ∈ joined.map Report.id)) =
            (!decide (distR r x ≤ radiusKm)) := by
        intro x hx
        have hxid : ¬ x.id = r.id := by
          intro he
          exact hqnd'.1 (he ▸ List.mem_map_of_mem Report.id hx)
        rw [Bool.eq_iff_iff]
        simp [hxid, hmemiff x hx]
      have hinva :
          all.filter (unprocessedB (r.id :: ((joined.map Report.id).reverse ++ processed))) =
            q'.filter (fun o => !decide (distR r o ≤ radiusKm)) := by
        rw [filter_unprocessed_cons, hq, hp', List.filter_cons_of_neg (by simp),
          List.filter_congr hdrop]
      have hinvb :
          rest.filter (unprocessedB (r.id :: ((joined.map Report.id).reverse ++ processed))) =
            q'.filter (fun o => !decide (distR r o ≤ radiusKm)) := by
        rw [filter_unprocessed_cons, ← hq'def, List.filter_congr hdrop]
      simp only [clusterGo, if_neg hr, hscan, hjq]
      rw [hp']
      simp only [clusterByLocationSpec]
      congr 1
      exact ih _ _ hinva hinvb

end Prediction

namespace Prediction

theorem clusterReportsByLocation_eq_spec (reports : List Report) (radiusKm : ℝ)
    (h : (reports.map Report.id).Nodup) :
    clusterReportsByLocation reports radiusKm = clusterByLocationSpec radiusKm reports := by
  have hfilter : ∀ L : List Report, L.filter (unprocessedB []) = L := by
    intro L
    apply List.filter_eq_self.mpr
    intro a _
    simp [unprocessedB]
  exact clusterGo_eq_spec radiusKm reports h reports [] reports (hfilter reports) (hfilter reports)

theorem clusterGo_center (radiusKm : ℝ) (all : List Report) :
    ∀ (pending : List Report) (processed : List String),
      ∀ c ∈ clusterGo radiusKm all pending processed, c.center = centroid c.reports := by
  intro pending
  induction pending with
  | nil => intro processed c hc; simp [clusterGo] at hc
  | cons r rest ih =>
    intro processed c hc
    by_cases hr : r.id ∈ processed
    · simp only [clusterGo, if_pos hr] at hc
      exact ih _ c hc
    · simp only [clusterGo, if_neg hr, List.mem_cons] at hc
      rcases hc with hc | hc
      · subst hc; rfl
      · exact ih _ c hc

theorem spec_flatten_perm (radiusKm : ℝ) :
    ∀ (n : ℕ) (q : List Report), q.length ≤ n →
      ((clusterByLocationSpec radiusKm q).map Cluster.reports).flatten.Perm q := by
  intro n
  induction n with
  | zero =>
    intro q hq
    rw [List.length_eq_zero.mp (Nat.le_zero.mp hq)]
    simp [clusterByLocationSpec]
  | succ n ih =>
    intro q hq
    match q with
    | [] => simp [clusterByLocationSpec]
    | seed :: rest =>
      have hrec := ih (rest.filter (fun o => !decide (distR seed o ≤ radiusKm)))
        (le_trans (List.length_filter_le _ _) (Nat.le_of_succ_le_succ hq))
      simp only [clusterByLocationSpec, List.map_cons, List.flatten_cons, mkCluster,
        List.cons_append]
      refine List.Perm.cons seed ?_
      exact (List.Perm.append_left _ hrec).trans (List.filter_append_perm _ rest)

theorem spec_nonempty (radiusKm : ℝ) :
    ∀ (n : ℕ) (q : List Report), q.length ≤ n →
      ∀ c ∈ clusterByLocationSpec radiusKm q, c.reports ≠ [] := by
  intro n
  induction n with
  | zero =>
    intro q hq
    rw [List.length_eq_zero.mp (Nat.le_zero.mp hq)]
    simp [clusterByLocationSpec]
  | succ n ih =>
    intro q hq c hc
    match q, hc with
    | [], hc => simp [clusterByLocationSpec] at hc
    | seed :: rest, hc =>
      simp only [clusterByLocationSpec, List.mem_cons] at hc
      rcases hc with hc | hc
      · subst hc; simp [mkCluster]
      · exact ih (rest.filter (fun o => !decide (distR seed o ≤ radiusKm)))
          (le_trans (List.length_filter_le _ _) (Nat.le_of_succ_le_succ hq)) c hc

theorem disjoint_of_flatten_nodup :
    ∀ cs : List Cluster,
      ((cs.map Cluster.reports).flatten.map Report.id).Nodup →
      List.Pairwise (fun c₁ c₂ => ∀ x ∈ c₁.reports, x ∉ c₂.reports) cs := by
  intro cs
  induction cs with
  | nil => intro _; simp
  | cons c rest ih =>
    intro h
    rw [List.map_cons, List.flatten_cons, List.map_append, List.nodup_append] at h
    obtain ⟨h1, h2, hdisj⟩ := h
    constructor
    · intro c₂ hc₂ x hx hx₂
      refine hdisj (List.mem_map_of_mem Report.id hx) ?_
      exact List.mem_map_of_mem Report.id
        (List.mem_flatten.mpr ⟨c₂.reports, List.mem_map_of_mem Cluster.reports hc₂, hx₂⟩)
    · exact ih h2

/-- C1: on inputs with pairwise-distinct ids, `clusterReportsByLocation`
implements exactly the specified seed-fixed rule: reports are scanned in
input order, each still-unprocessed report seeds a new cluster joined by
exactly the still-unprocessed reports within `radiusKm` of the seed's
original location (membership is never tested against the evolving
centroid), and each cluster's center is recomputed once, after membership
is frozen, as the arithmetic mean of the members' coordinates. -/
theorem claim_C1_cluster_seed_rule (reports : List Report) (radiusKm : ℝ)
    (h : (reports.map Report.id).Nodup) :
    clusterReportsByLocation reports radiusKm = clusterByLocationSpec radiusKm reports ∧
    ∀ c ∈ clusterReportsByLocation reports radiusKm, c.center = centroid c.reports :=
  ⟨clusterReportsByLocation_eq_spec reports radiusKm h,
   clusterGo_center radiusKm reports reports []⟩

theorem claim_C1_witness :
    (([reportA, reportC].map Report.id).Nodup) ∧
    (clusterReportsByLocation [reportA, reportC] 0.45 =
        clusterByLocationSpec 0.45 [reportA, reportC] ∧
      ∀ c ∈ clusterReportsByLocation [reportA, reportC] 0.45,
        c.center = centroid c.reports) :=
  ⟨by simp [reportA, reportC], claim_C1_cluster_seed_rule _ _ (by simp [reportA, reportC])⟩

/-- C9: on inputs with pairwise-distinct ids the clustering output is a
partition of the input reports: every cluster is non-empty, the clusters'
member lists together are a permutation of the input, and distinct
clusters share no report. -/
theorem claim_C9_partition (reports : List Report) (radiusKm : ℝ)
    (h : (reports.map Report.id).Nodup) :
    (∀ c ∈ clusterReportsByLocation reports radiusKm, c.reports ≠ []) ∧
    ((clusterReportsByLocation reports radiusKm).map Cluster.reports).flatten.Perm reports ∧
    List.Pairwise (fun c₁ c₂ => ∀ x ∈ c₁.reports, x ∉ c₂.reports)
      (clusterReportsByLocation reports radiusKm) := by
  rw [clusterReportsByLocation_eq_spec reports radiusKm h]
  have hperm := spec_flatten_perm radiusKm reports.length reports le_rfl
  refine ⟨spec_nonempty radiusKm reports.length reports le_rfl, hperm, ?_⟩
  apply disjoint_of_flatten_nodup
  exact (hperm.map Report.id).nodup_iff.mpr h

theorem claim_C9_witness :
    (([reportA, reportB].map Report.id).Nodup) ∧
    ((∀ c ∈ clusterReportsByLocation [reportA, reportB] 0.45, c.reports ≠ []) ∧
      ((clusterReportsByLocation [reportA, reportB] 0.45).map
        Cluster.reports).flatten.Perm [reportA, reportB] ∧
      List.Pairwise (fun c₁ c₂ => ∀ x ∈ c₁.reports, x ∉ c₂.reports)
        (clusterReportsByLocation [reportA, reportB] 0.45)) :=
  ⟨by simp [reportA, reportB], claim_C9_partition _ _ (by simp [reportA, reportB])⟩

theorem cluster_example_eval :
    clusterReportsByLocation [reportA, reportB, reportC] 0.45 =
      [mkCluster reportA [reportA, reportB], mkCluster reportC [reportC]] := by
  have hb : decide (distR reportA reportB ≤ (0.45 : ℝ)) = true := decide_eq_true distR_AB_le
  have hc : decide (distR reportA reportC ≤ (0.45 : ℝ)) = false :=
    decide_eq_false distR_AC_not_le
  rw [clusterReportsByLocation_eq_spec _ _ (by simp [reportA, reportB, reportC])]
  simp only [clusterByLocationSpec, List.filter_cons, hb, hc, List.filter_nil]
  simp [clusterByLocationSpec]

/-- C3 counterexample: with A=(0,0), B=(0.004° east), C=(0.008° east) and
radius 0.45 km, clustering `[A,B,C]` does NOT yield one single cluster —
C lies about 0.89 km from the seed A, outside the radius. -/
theorem claim_C3_counterexample :
    (clusterReportsByLocation [reportA, reportB, reportC] 0.45).length ≠ 1 := by
  rw [cluster_example_eval]
  simp

/-- C3 amended: clustering `[A,B,C]` at radius 0.45 km yields two clusters,
`{A,B}` (B is within 0.45 km of the seed A) and `{C}` (C is not, and both
B and C are tested against A, the seed). -/
theorem claim_C3_amended :
    (clusterReportsByLocation [reportA, reportB, reportC] 0.45).map Cluster.reports =
      [[reportA, reportB], [reportC]] := by
  rw [cluster_example_eval]
  simp [mkCluster]

end Prediction

namespace Prediction

theorem min_jsRound_100_nonneg {x : ℝ} (hx : 0 ≤ x) : (0 : ℤ) ≤ min (jsRound x) 100 := by
  refine le_min ?_ (by norm_num)
  unfold jsRound
  exact Int.floor_nonneg.mpr (by linarith)

/-- C4: for a non-empty cluster and a positive analysis window, the scorer's
`crowdingLevel` and `confidence` both land in `[0, 100]`. -/
theorem claim_C4_score_bounds (cluster : Cluster) (zones : List Zone)
    (daysAnalyzed : ℝ) (predictionHours : ℤ) (now : ℤ)
    (hne : cluster.reports ≠ []) (hd : 0 < daysAnalyzed) :
    0 ≤ (analyzeCrowdingPattern cluster zones daysAnalyzed predictionHours now).crowdingLevel ∧
    (analyzeCrowdingPattern cluster zones daysAnalyzed predictionHours now).crowdingLevel ≤ 100 ∧
    0 ≤ (analyzeCrowdingPattern cluster zones daysAnalyzed predictionHours now).confidence ∧
    (analyzeCrowdingPattern cluster zones daysAnalyzed predictionHours now).confidence ≤ 100 := by
  have hd' : (0 : ℝ) ≤ daysAnalyzed := le_of_lt hd
  simp only [analyzeCrowdingPattern]
  refine ⟨min_jsRound_100_nonneg ?_, min_le_right _ _, min_jsRound_100_nonneg ?_,
    min_le_right _ _⟩
  · have h1 : (0 : ℝ) ≤
        (if 0 < (cluster.reports.filter (fun r =>
            decide (getHours r.createdAt =
              getHours (now + predictionHours * (60 * 60 * 1000))))).length then
          ((((cluster.reports.filter (fun r =>
            decide (getHours r.createdAt =
              getHours (now + predictionHours * (60 * 60 * 1000))))).length : ℝ)) /
            ((cluster.reports.length : ℝ) / daysAnalyzed)) * 100
        else 0) := by
      split
      · exact mul_nonneg (div_nonneg (Nat.cast_nonneg _)
          (div_nonneg (Nat.cast_nonneg _) hd')) (by norm_num)
      · exact le_refl 0
    have h2 : (0 : ℝ) ≤
        (if 0 < (cluster.reports.filter (fun r =>
            decide (getDay r.createdAt =
              getDay (now + predictionHours * (60 * 60 * 1000))))).length then
          ((((cluster.reports.filter (fun r =>
            decide (getDay r.createdAt =
              getDay (now + predictionHours * (60 * 60 * 1000))))).length : ℝ)) /
            ((cluster.reports.length : ℝ) / 7)) * 100
        else 0) := by
      split
      · exact mul_nonneg (div_nonneg (Nat.cast_nonneg _)
          (div_nonneg (Nat.cast_nonneg _) (by norm_num))) (by norm_num)
      · exact le_refl 0
    have h3 : (0 : ℝ) ≤
        (((cluster.reports.filter (fun r => decide (r.severity = Severity.high))).length : ℝ) /
          (cluster.reports.length : ℝ)) * 100 :=
      mul_nonneg (div_nonneg (Nat.cast_nonneg _) (Nat.cast_nonneg _)) (by norm_num)
    have h4 : (0 : ℝ) ≤ min (((zones.filter (fun zone =>
        match zone.center with
        | none => false
        | some c =>
          decide (calculateDistance cluster.center.2 cluster.center.1 c.2 c.1 ≤ 1))).length : ℝ)
          * 20) 100 :=
      le_min (mul_nonneg (Nat.cast_nonneg _) (by norm_num)) (by norm_num)
    have h5 : (0 : ℝ) ≤ min (((cluster.reports.length : ℝ) / daysAnalyzed) * 10) 100 :=
      le_min (mul_nonneg (div_nonneg (Nat.cast_nonneg _) hd') (by norm_num)) (by norm_num)
    have w : ∀ y : ℝ, 0 ≤ y → ∀ c : ℝ, 0 ≤ c → 0 ≤ y * c := fun y hy c hc => mul_nonneg hy hc
    refine add_nonneg (add_nonneg (add_nonneg (add_nonneg ?_ ?_) ?_) ?_) ?_
    · exact w _ h1 _ (by norm_num)
    · exact w _ h2 _ (by norm_num)
    · exact w _ h3 _ (by norm_num)
    · exact w _ h4 _ (by norm_num)
    · exact w _ h5 _ (by norm_num)
  · exact mul_nonneg (div_nonneg (Nat.cast_nonneg _) hd') (by norm_num)

theorem claim_C4_witness :
    ((Cluster.mk (0, 0) [reportA] "x").reports ≠ [] ∧ (0 : ℝ) < 1) ∧
    (0 ≤ (analyzeCrowdingPattern (Cluster.mk (0, 0) [reportA] "x") [] 1 0 0).crowdingLevel ∧
      (analyzeCrowdingPattern (Cluster.mk (0, 0) [reportA] "x") [] 1 0 0).crowdingLevel ≤ 100 ∧
      0 ≤ (analyzeCrowdingPattern (Cluster.mk (0, 0) [reportA] "x") [] 1 0 0).confidence ∧
      (analyzeCrowdingPattern (Cluster.mk (0, 0) [reportA] "x") [] 1 0 0).confidence ≤ 100) :=
  ⟨⟨by simp, by norm_num⟩,
   claim_C4_score_bounds (Cluster.mk (0, 0) [reportA] "x") [] 1 0 0 (by simp) (by norm_num)⟩

end Prediction

namespace Prediction

/-- C6: the trend label compares the count of reports from the last 7 days
(`recent`) against the older ones: `increasing` iff `recent > 1.2 * older`,
`decreasing` iff `recent < 0.8 * older`, `stable` otherwise; in particular
a cluster whose members are all recent (no older members) reports
`increasing`. -/
theorem claim_C6_trend_rule (cluster : Cluster) (zones : List Zone)
    (daysAnalyzed : ℝ) (predictionHours : ℤ) (now : ℤ)
    (hne : cluster.reports ≠ []) :
    let recent := (cluster.reports.filter
      (fun r => decide (now - 7 * 24 * 60 * 60 * 1000 < r.createdAt))).length
    let older := (cluster.reports.filter
      (fun r => decide (r.createdAt ≤ now - 7 * 24 * 60 * 60 * 1000))).length
    let t := (analyzeCrowdingPattern cluster zones daysAnalyzed predictionHours now).trend
    (t = Trend.increasing ↔ (older : ℝ) * 1.2 < (recent : ℝ)) ∧
    (t = Trend.decreasing ↔ (recent : ℝ) < (older : ℝ) * 0.8) ∧
    (t = Trend.stable ↔
      ¬ ((older : ℝ) * 1.2 < (recent : ℝ)) ∧ ¬ ((recent : ℝ) < (older : ℝ) * 0.8)) ∧
    (older = 0 → 0 < recent → t = Trend.increasing) := by
  intro recent older t
  have hexcl : ¬ (((older : ℝ) * 1.2 < (recent : ℝ)) ∧ ((recent : ℝ) < (older : ℝ) * 0.8)) := by
    rintro ⟨h1, h2⟩
    have h0 : (0 : ℝ) ≤ (older : ℝ) := Nat.cast_nonneg _
    nlinarith
  have hzero : older = 0 → 0 < recent → (older : ℝ) * 1.2 < (recent : ℝ) := by
    intro ho hr
    rw [ho]
    push_cast
    simpa using Nat.cast_pos.mpr hr
  have ht : t = (if (older : ℝ) * 1.2 < (recent : ℝ) then Trend.increasing
      else if (recent : ℝ) < (older : ℝ) * 0.8 then Trend.decreasing else Trend.stable) := rfl
  rw [ht]
  by_cases h1 : (older : ℝ) * 1.2 < (recent : ℝ)
  · have h2 : ¬ ((recent : ℝ) < (older : ℝ) * 0.8) := fun hc => hexcl ⟨h1, hc⟩
    simp only [if_pos h1]
    exact ⟨by simp [h1], by simp [h2], by simp [h1], by simp⟩
  · by_cases h2 : (recent : ℝ) < (older : ℝ) * 0.8
    · simp only [if_neg h1, if_pos h2]
      refine ⟨by simp [h1], by simp [h2], by simp [h1, h2], ?_⟩
      intro ho hr
      exact absurd (hzero ho hr) h1
    · simp only [if_neg h1, if_neg h2]
      refine ⟨by simp [h1], by simp [h2], by simp [h1, h2], ?_⟩
      intro ho hr
      exact absurd (hzero ho hr) h1

theorem claim_C6_witness :
    ((Cluster.mk (0, 0) [reportA] "x").reports ≠ []) ∧
    (let recent := ((Cluster.mk (0, 0) [reportA] "x").reports.filter
      (fun r => decide ((0 : ℤ) - 7 * 24 * 60 * 60 * 1000 < r.createdAt))).length
    let older := ((Cluster.mk (0, 0) [reportA] "x").reports.filter
      (fun r => decide (r.createdAt ≤ (0 : ℤ) - 7 * 24 * 60 * 60 * 1000))).length
    let t := (analyzeCrowdingPattern (Cluster.mk (0, 0) [reportA] "x") [] 1 0 0).trend
    (t = Trend.increasing ↔ (older : ℝ) * 1.2 < (recent : ℝ)) ∧
    (t = Trend.decreasing ↔ (recent : ℝ) < (older : ℝ) * 0.8) ∧
    (t = Trend.stable ↔
      ¬ ((older : ℝ) * 1.2 < (recent : ℝ)) ∧ ¬ ((recent : ℝ) < (older : ℝ) * 0.8)) ∧
    (older = 0 → 0 < recent → t = Trend.increasing)) :=
  ⟨by simp, claim_C6_trend_rule (Cluster.mk (0, 0) [reportA] "x") [] 1 0 0 (by simp)⟩

end Prediction

namespace Prediction

/-- C5: every entry of the general forecast has `crowdingLevel > 20`, and
the returned list is sorted non-increasing by `crowdingLevel`. -/
theorem claim_C5_forecast_filter_sort (reports : List Report) (zones : List Zone)
    (daysToAnalyze : ℝ) (predictionHours : ℤ) (now : ℤ) (hd : 0 < daysToAnalyze) :
    (∀ p ∈ generateCrowdingPredictions reports zones daysToAnalyze predictionHours now,
      20 < p.crowdingLevel) ∧
    List.Sorted (fun a b : CrowdingPrediction => b.crowdingLevel ≤ a.crowdingLevel)
      (generateCrowdingPredictions reports zones daysToAnalyze predictionHours now) := by
  constructor
  · intro p hp
    simp only [generateCrowdingPredictions] at hp
    rw [List.mem_mergeSort] at hp
    exact of_decide_eq_true (List.mem_filter.mp hp).2
  · simp only [generateCrowdingPredictions]
    have hs := @List.sorted_mergeSort CrowdingPrediction
      (fun a b => decide (b.crowdingLevel ≤ a.crowdingLevel))
      (fun a b c h1 h2 => by
        rw [decide_eq_true_eq] at h1 h2 ⊢
        exact le_trans h2 h1)
      (fun a b => by
        rcases le_total b.crowdingLevel a.crowdingLevel with h | h
        · simp [h]
        · simp [h])
      (((clusterReportsByLocation reports 0.5).map
          (fun c => analyzeCrowdingPattern c zones daysToAnalyze predictionHours now)).filter
        (fun p => decide (20 < p.crowdingLevel)))
    exact hs.imp (fun h => of_decide_eq_true h)

theorem claim_C5_witness :
    ((0 : ℝ) < 1) ∧
    ((∀ p ∈ generateCrowdingPredictions [] [] 1 0 0, 20 < p.crowdingLevel) ∧
      List.Sorted (fun a b : CrowdingPrediction => b.crowdingLevel ≤ a.crowdingLevel)
        (generateCrowdingPredictions [] [] 1 0 0)) :=
  ⟨by norm_num, claim_C5_forecast_filter_sort [] [] 1 0 0 (by norm_num)⟩

end Prediction

namespace Prediction

theorem meanSeverity_ite (L : List Report) :
    (if 0 < L.length then (L.map (fun r => (sevScore r.severity : ℝ))).sum / L.length else 0) =
      meanSeverity L := by
  cases L with
  | nil => simp [meanSeverity]
  | cons a t => simp [meanSeverity]

theorem getHourlyPredictions_length (reports : List Report) (location : ℝ × ℝ)
    (radiusKm daysToAnalyze : ℝ) :
    (getHourlyPredictions reports location radiusKm daysToAnalyze).length = 24 := by
  simp [getHourlyPredictions]

/-- C7: the hourly profile has exactly 24 entries with `hour` values `0..23`
in ascending positions; entry `i` carries
`crowdingLevel = min(round(avgSeverity * 33.33), 100)` for the mean severity
of the hour-`i` bucket of reports within `radiusKm` of the location
(0 when the bucket is empty), and
`confidence = min(round((bucketCount / (daysAnalyzed / 24)) * 100), 100)`. -/
theorem claim_C7_hourly_profile (reports : List Report) (location : ℝ × ℝ)
    (radiusKm daysToAnalyze : ℝ) :
    (getHourlyPredictions reports location radiusKm daysToAnalyze).length = 24 ∧
    ∀ i : ℕ, i < 24 →
      (getHourlyPredictions reports location radiusKm daysToAnalyze)[i]? =
        some { hour := i
               crowdingLevel :=
                 min (jsRound (meanSeverity (hourBucket reports location radiusKm i) * 33.33)) 100
               confidence :=
                 min (jsRound ((((hourBucket reports location radiusKm i).length : ℝ) /
                   (daysToAnalyze / 24)) * 100)) 100 } := by
  refine ⟨getHourlyPredictions_length reports location radiusKm daysToAnalyze, ?_⟩
  intro i hi
  simp only [getHourlyPredictions, List.getElem?_map, List.getElem?_range hi, Option.map_some']
  rw [meanSeverity_ite]
  rfl

theorem claim_C7_witness :
    (0 : ℕ) < 24 ∧
    (getHourlyPredictions [] (0, 0) 1 30)[(0 : ℕ)]? =
      some { hour := 0
             crowdingLevel := min (jsRound (meanSeverity (hourBucket [] (0, 0) 1 0) * 33.33)) 100
             confidence := min (jsRound ((((hourBucket [] (0, 0) 1 0).length : ℝ) /
               ((30 : ℝ) / 24)) * 100)) 100 } :=
  ⟨by norm_num, (claim_C7_hourly_profile [] (0, 0) 1 30).2 0 (by norm_num)⟩

end Prediction

namespace Prediction

theorem generateCrowdingPredictions_nil (zones : List Zone) (daysToAnalyze : ℝ)
    (predictionHours : ℤ) (now : ℤ) :
    generateCrowdingPredictions [] zones daysToAnalyze predictionHours now = [] := by
  simp [generateCrowdingPredictions, clusterReportsByLocation, clusterGo]

theorem getPredictionForTime_nil (location : ℝ × ℝ) (targetTime : ℤ)
    (radiusKm daysToAnalyze : ℝ) (zones : List Zone) (now : ℤ) :
    getPredictionForTime location targetTime radiusKm daysToAnalyze [] zones now = none := by
  simp [getPredictionForTime, generateCrowdingPredictions_nil]

/-- C2 counterexample: the hourly profile performs no parameter validation.
At `daysToAnalyze = -1` (an invalid, non-positive window) it neither
returns nor raises an error before computing: it runs to completion and
returns an ordinary 24-entry profile whose hour-0 entry even carries the
nonsensical confidence value `-2400`. -/
theorem claim_C2_counterexample :
    (getHourlyPredictions [reportHigh] (0, 0) 1 (-1)).length = 24 ∧
    (getHourlyPredictions [reportHigh] (0, 0) 1 (-1))[(0 : ℕ)]? =
      some { hour := 0, crowdingLevel := 100, confidence := -2400 } := by
  refine ⟨getHourlyPredictions_length _ _ _ _, ?_⟩
  have hd0 : decide (calculateDistance (0 : ℝ) 0 0 0 ≤ (1 : ℝ)) = true :=
    decide_eq_true (by rw [calculateDistance_self]; norm_num)
  have hh : getHours (0 : ℤ) = ((0 : ℕ) : ℤ) := by decide
  have hcr : jsRound ((3 : ℝ) * 33.33) = 100 := by
    unfold jsRound
    rw [Int.floor_eq_iff]
    norm_num
  have hco : jsRound ((24 : ℝ) / -1 * 100) = -2400 := by
    unfold jsRound
    rw [Int.floor_eq_iff]
    norm_num
  simp only [getHourlyPredictions, List.getElem?_map,
    List.getElem?_range (by norm_num : (0 : ℕ) < 24), Option.map_some']
  simp [reportHigh, hd0, hh, sevScore, hcr]
  rw [hco]
  exact min_eq_left (by norm_num)

/-- C2 amended: the three query operations perform no parameter
validation.  With `daysAnalyzed ≤ 0` or `radiusKm ≤ 0` they neither
return nor raise an error: the hourly profile still computes and returns
its ordinary 24-entry result, and the general forecast and point lookup
still run to completion, returning their ordinary empty-data results on
an empty report list.  (The only coordinate checks in the repository are
JavaScript falsiness tests in the HTTP route, outside the engine.) -/
theorem claim_C2_amended (reports : List Report) (location : ℝ × ℝ)
    (radiusKm daysToAnalyze : ℝ) (zones : List Zone) (predictionHours : ℤ)
    (targetTime now : ℤ) (h : daysToAnalyze ≤ 0 ∨ radiusKm ≤ 0) :
    (getHourlyPredictions reports location radiusKm daysToAnalyze).length = 24 ∧
    generateCrowdingPredictions [] zones daysToAnalyze predictionHours now = [] ∧
    getPredictionForTime location targetTime radiusKm daysToAnalyze [] zones now = none :=
  ⟨getHourlyPredictions_length reports location radiusKm daysToAnalyze,
   generateCrowdingPredictions_nil zones daysToAnalyze predictionHours now,
   getPredictionForTime_nil location targetTime radiusKm daysToAnalyze zones now⟩

theorem claim_C2_witness :
    ((-1 : ℝ) ≤ 0 ∨ (1 : ℝ) ≤ 0) ∧
    ((getHourlyPredictions [] (0, 0) 1 (-1)).length = 24 ∧
      generateCrowdingPredictions [] [] (-1) 0 0 = [] ∧
      getPredictionForTime (0, 0) 0 1 (-1) [] [] 0 = none) :=
  ⟨Or.inl (by norm_num), claim_C2_amended [] (0, 0) 1 (-1) [] 0 0 0 (Or.inl (by norm_num))⟩

theorem closestStep_none (location : ℝ × ℝ) (radiusKm : ℝ) (a : CrowdingPrediction) :
    closestStep location radiusKm none a =
      (if distToPrediction location a ≤ radiusKm
       then some (a, distToPrediction location a) else none) := rfl

theorem closestStep_some (location : ℝ × ℝ) (radiusKm : ℝ) (p₁ : CrowdingPrediction)
    (m₁ : ℝ) (a : CrowdingPrediction) :
    closestStep location radiusKm (some (p₁, m₁)) a =
      (if distToPrediction location a ≤ radiusKm ∧ distToPrediction location a < m₁
       then some (a, distToPrediction location a) else some (p₁, m₁)) := rfl

theorem foldl_closestStep (location : ℝ × ℝ) (radiusKm : ℝ) :
    ∀ (l : List CrowdingPrediction) (acc : Option (CrowdingPrediction × ℝ)),
      (∀ p m, acc = some (p, m) → m = distToPrediction location p ∧ m ≤ radiusKm) →
      ((l.foldl (closestStep location radiusKm) acc = none ↔
        acc = none ∧ ∀ p ∈ l, ¬ distToPrediction location p ≤ radiusKm) ∧
       (∀ p m, l.foldl (closestStep location radiusKm) acc = some (p, m) →
         m = distToPrediction location p ∧ m ≤ radiusKm ∧
         (acc = some (p, m) ∨ p ∈ l) ∧
         (∀ q ∈ l, distToPrediction location q ≤ radiusKm → m ≤ distToPrediction location q) ∧
         (∀ p₀ m₀, acc = some (p₀, m₀) → m ≤ m₀))) := by
  intro l
  induction l with
  | nil =>
    intro acc hacc
    constructor
    · simp
    · intro p m h
      obtain ⟨h1, h2⟩ := hacc p m h
      refine ⟨h1, h2, Or.inl h, by simp, ?_⟩
      intro p₀ m₀ h₀
      have he := h.symm.trans h₀
      simp only [Option.some.injEq, Prod.mk.injEq] at he
      exact le_of_eq he.2
  | cons a t ih =>
    intro acc hacc
    rw [List.foldl_cons]
    cases acc with
    | none =>
      rw [closestStep_none]
      by_cases hle : distToPrediction location a ≤ radiusKm
      · rw [if_pos hle]
        obtain ⟨ihnone, ihsome⟩ := ih (some (a, distToPrediction location a)) (by
          intro p m hpm
          simp only [Option.some.injEq, Prod.mk.injEq] at hpm
          obtain ⟨h1, h2⟩ := hpm
          subst h1
          subst h2
          exact ⟨rfl, hle⟩)
        constructor
        · constructor
          · intro hnone
            rw [ihnone] at hnone
            exact absurd hnone.1 (by simp)
          · rintro ⟨_, hall⟩
            exact absurd hle (hall a (List.mem_cons_self a t))
        · intro p m hfold
          obtain ⟨hm, hmr, hmem, hmin, hmono⟩ := ihsome p m hfold
          refine ⟨hm, hmr, ?_, ?_, ?_⟩
          · rcases hmem with hmem | hmem
            · simp only [Option.some.injEq, Prod.mk.injEq] at hmem
              exact Or.inr (List.mem_cons.mpr (Or.inl hmem.1.symm))
            · exact Or.inr (List.mem_cons_of_mem a hmem)
          · intro q hq hqr
            rcases List.mem_cons.mp hq with rfl | hq
            · exact hmono q (distToPrediction location q) rfl
            · exact hmin q hq hqr
          · intro p₀ m₀ h₀
            exact absurd h₀ (by simp)
      · rw [if_neg hle]
        obtain ⟨ihnone, ihsome⟩ := ih none (by
          intro p m hpm
          exact absurd hpm (by simp))
        constructor
        · rw [ihnone]
          constructor
          · rintro ⟨_, hall⟩
            refine ⟨rfl, ?_⟩
            intro p hp
            rcases List.mem_cons.mp hp with rfl | hp
            · exact hle
            · exact hall p hp
          · rintro ⟨_, hall⟩
            exact ⟨rfl, fun p hp => hall p (List.mem_cons_of_mem a hp)⟩
        · intro p m hfold
          obtain ⟨hm, hmr, hmem, hmin, hmono⟩ := ihsome p m hfold
          refine ⟨hm, hmr, ?_, ?_, ?_⟩
          · rcases hmem with hmem | hmem
            · exact absurd hmem (by simp)
            · exact Or.inr (List.mem_cons_of_mem a hmem)
          · intro q hq hqr
            rcases List.mem_cons.mp hq with rfl | hq
            · exact absurd hqr hle
            · exact hmin q hq hqr
          · intro p₀ m₀ h₀
            exact absurd h₀ (by simp)
    | some pm =>
      obtain ⟨p₁, m₁⟩ := pm
      obtain ⟨hm₁, hm₁r⟩ := hacc p₁ m₁ rfl
      rw [closestStep_some]
      by_cases hcond : distToPrediction location a ≤ radiusKm ∧ distToPrediction location a < m₁
      · rw [if_pos hcond]
        obtain ⟨ihnone, ihsome⟩ := ih (some (a, distToPrediction location a)) (by
          intro p m hpm
          simp only [Option.some.injEq, Prod.mk.injEq] at hpm
          obtain ⟨h1, h2⟩ := hpm
          subst h1
          subst h2
          exact ⟨rfl, hcond.1⟩)
        constructor
        · constructor
          · intro hnone
            rw [ihnone] at hnone
            exact absurd hnone.1 (by simp)
          · rintro ⟨hc, _⟩
            exact absurd hc (by simp)
        · intro p m hfold
          obtain ⟨hm, hmr, hmem, hmin, hmono⟩ := ihsome p m hfold
          refine ⟨hm, hmr, ?_, ?_, ?_⟩
          · rcases hmem with hmem | hmem
            · simp only [Option.some.injEq, Prod.mk.injEq] at hmem
              exact Or.inr (List.mem_cons.mpr (Or.inl hmem.1.symm))
            · exact Or.inr (List.mem_cons_of_mem a hmem)
          · intro q hq hqr
            rcases List.mem_cons.mp hq with rfl | hq
            · exact hmono q (distToPrediction location q) rfl
            · exact hmin q hq hqr
          · intro p₀ m₀ h₀
            simp only [Option.some.injEq, Prod.mk.injEq] at h₀
            have h1 := hmono a (distToPrediction location a) rfl
            have h2 : distToPrediction location a < m₀ := by
              rw [← h₀.2]
              exact hcond.2
            exact le_of_lt (lt_of_le_of_lt h1 h2)
      · rw [if_neg hcond]
        obtain ⟨ihnone, ihsome⟩ := ih (some (p₁, m₁)) (by
          intro p m hpm
          simp only [Option.some.injEq, Prod.mk.injEq] at hpm
          obtain ⟨h1, h2⟩ := hpm
          subst h1
          subst h2
          exact ⟨hm₁, hm₁r⟩)
        constructor
        · constructor
          · intro hnone
            rw [ihnone] at hnone
            exact absurd hnone.1 (by simp)
          · rintro ⟨hc, _⟩
            exact absurd hc (by simp)
        · intro p m hfold
          obtain ⟨hm, hmr, hmem, hmin, hmono⟩ := ihsome p m hfold
          refine ⟨hm, hmr, ?_, ?_, ?_⟩
          · rcases hmem with hmem | hmem
            · exact Or.inl hmem
            · exact Or.inr (List.mem_cons_of_mem a hmem)
          · intro q hq hqr
            rcases List.mem_cons.mp hq with rfl | hq
            · have hm₁le : m₁ ≤ distToPrediction location q := by
                by_contra hlt
                push_neg at hlt
                exact hcond ⟨hqr, hlt⟩
              exact le_trans (hmono p₁ m₁ rfl) hm₁le
            · exact hmin q hq hqr
          · intro p₀ m₀ h₀
            simp only [Option.some.injEq, Prod.mk.injEq] at h₀
            rw [← h₀.2]
            exact hmono p₁ m₁ rfl

/-- C8: the point-in-time lookup derives the forecast horizon
`round((targetInstant - now) / 1 hour)`, re-runs the general forecast with
that horizon, and returns the forecast entry whose cluster center is
within `radiusKm` of the queried location with the smallest such distance;
it returns `none` exactly when no entry qualifies, and in particular on an
empty report list. -/
theorem claim_C8_point_lookup (location : ℝ × ℝ) (targetTime : ℤ)
    (radiusKm daysToAnalyze : ℝ) (reports : List Report) (zones : List Zone) (now : ℤ) :
    (getPredictionForTime location targetTime radiusKm daysToAnalyze reports zones now = none ↔
      ∀ p ∈ generateCrowdingPredictions reports zones daysToAnalyze
          (jsRound (((targetTime - now : ℤ) : ℝ) / (1000 * 60 * 60))) now,
        ¬ distToPrediction location p ≤ radiusKm) ∧
    (∀ p, getPredictionForTime location targetTime radiusKm daysToAnalyze reports zones now =
        some p →
      p ∈ generateCrowdingPredictions reports zones daysToAnalyze
          (jsRound (((targetTime - now : ℤ) : ℝ) / (1000 * 60 * 60))) now ∧
      distToPrediction location p ≤ radiusKm ∧
      ∀ q ∈ generateCrowdingPredictions reports zones daysToAnalyze
          (jsRound (((targetTime - now : ℤ) : ℝ) / (1000 * 60 * 60))) now,
        distToPrediction location q ≤ radiusKm →
          distToPrediction location p ≤ distToPrediction location q) ∧
    (reports = [] →
      getPredictionForTime location targetTime radiusKm daysToAnalyze reports zones now =
        none) := by
  obtain ⟨hnone, hsome⟩ := foldl_closestStep location radiusKm
    (generateCrowdingPredictions reports zones daysToAnalyze
      (jsRound (((targetTime - now : ℤ) : ℝ) / (1000 * 60 * 60))) now) none
    (by intro p m h; exact absurd h (by simp))
  refine ⟨?_, ?_, ?_⟩
  · constructor
    · intro h
      simp only [getPredictionForTime, Option.map_eq_none'] at h
      exact (hnone.mp h).2
    · intro h
      simp only [getPredictionForTime, Option.map_eq_none']
      exact hnone.mpr ⟨rfl, h⟩
  · intro p hp
    simp only [getPredictionForTime, Option.map_eq_some'] at hp
    obtain ⟨⟨p', m⟩, hfold, hfst⟩ := hp
    subst hfst
    obtain ⟨hm, hmr, hmem, hmin, _⟩ := hsome p' m hfold
    refine ⟨?_, by rw [← hm]; exact hmr, ?_⟩
    · rcases hmem with hmem | hmem
      · exact absurd hmem (by simp)
      · exact hmem
    · intro q hq hqr
      rw [← hm]
      exact hmin q hq hqr
  · intro hr
    subst hr
    exact getPredictionForTime_nil location targetTime radiusKm daysToAnalyze zones now

theorem claim_C8_witness :
    getPredictionForTime (0, 0) 0 1 30 [] [] 0 = none :=
  (claim_C8_point_lookup (0, 0) 0 1 30 [] [] 0).2.2 rfl
